import Mathlib

/-!
Verification of the oauthlib OAuth 2.0 authorization-server library
(package `oauthlib`) against its natural-language specification.

The Go sources are shallowly embedded: pure helpers become Lean
functions on `String`/`List Char`; the stateful handlers become
functions from an explicit `Response` value (and oracles standing for
the pluggable `Storage` and token-generator interfaces) to a new
`Response` together with a trace of the storage operations performed,
in order.  Go strings are Lean `String`s; `time.Time` is modelled as
seconds (`Int`); Go's `interface{}` user payload is modelled by an
opaque inhabited type.
-/

namespace Oauthlib

/-! ### Go string primitives

Structural-recursion models of the `strings` package functions the
sources use, defined on `List Char` so that every concrete instance
reduces by `rfl`/`decide`. -/

/-- Splits a character list at every occurrence of `sep`; mirrors Go
`strings.Split` for a one-character separator (`Split("", sep) = [""]`,
empty fields kept). -/
def listSplitChar (sep : Char) : List Char → List (List Char)
  | [] => [[]]
  | c :: rest =>
    let r := listSplitChar sep rest
    if c = sep then [] :: r
    else
      match r with
      | h :: t => (c :: h) :: t
      | [] => [[c]]

/-- Go `strings.Split(s, sep)` for a one-character separator. -/
def goSplitChar (s : String) (sep : Char) : List String :=
  (listSplitChar sep s.data).map (fun l => ⟨l⟩)

/-- Splits a character list at the first occurrence of `sep`:
`none` when `sep` does not occur, otherwise the parts before and after. -/
def listCutChar (sep : Char) : List Char → Option (List Char × List Char)
  | [] => none
  | c :: rest =>
    if c = sep then some ([], rest)
    else
      match listCutChar sep rest with
      | none => none
      | some (a, b) => some (c :: a, b)

/-- Go `strings.SplitN(s, sep, 2)` for a one-character separator:
either `[s]` (separator absent) or the two parts around its first
occurrence. -/
def goSplitN2 (s : String) (sep : Char) : List String :=
  match listCutChar sep s.data with
  | none => [s]
  | some (a, b) => [⟨a⟩, ⟨b⟩]

/-- Go `strings.HasPrefix(s, pre)`. -/
def goStartsWith (s pre : String) : Bool :=
  pre.data.isPrefixOf s.data

/-- Go `strings.TrimPrefix(s, pre)`. -/
def goTrimStart (s pre : String) : String :=
  if goStartsWith s pre then ⟨s.data.drop pre.data.length⟩ else s

/-- Go `strings.TrimRight(s, cutset)` for a one-character cutset. -/
def goTrimRightChar (s : String) (c : Char) : String :=
  ⟨(s.data.reverse.dropWhile (fun x => x = c)).reverse⟩

/-! ### `net/url` model

A model of the parts of Go's `net/url.Parse` that the library's URI
validation observes: fragment and query splitting, scheme recognition
(lower-cased, error when the URL starts with `:`), authority/host
extraction, and rejection of ASCII control characters.  Percent-escape
decoding is not modelled (paths are taken verbatim). -/

/-- The fields of Go's `url.URL` observed by the library. -/
structure GoURL where
  scheme : String
  host : String
  path : String
  rawQuery : String
  fragment : String
deriving DecidableEq, Repr

/-- ASCII control byte test used by `url.Parse` to reject a URL. -/
def ctlByte (c : Char) : Bool :=
  c.toNat < 0x20 || c.toNat = 0x7f

/-- Result of Go's `getScheme`. -/
inductive SchemeRes where
  | err
  | found (scheme rest : List Char)
  | nofound
deriving Repr

/-- Character class allowed in a scheme after the first character. -/
def schemeTailChar (c : Char) : Bool :=
  c.isAlpha || c.isDigit || c = '+' || c = '-' || c = '.'

/-- Go `getScheme`: scans for `scheme:`; an initial `:` is an error,
any character outside the scheme alphabet means there is no scheme. -/
def getSchemeAux (acc : List Char) : List Char → SchemeRes
  | [] => .nofound
  | c :: rest =>
    if c = ':' then
      if acc = [] then .err else .found acc.reverse rest
    else if c.isAlpha then getSchemeAux (c :: acc) rest
    else if schemeTailChar c then
      if acc = [] then .nofound else getSchemeAux (c :: acc) rest
    else .nofound

/-- Splits a character list at the first occurrence of `stop`, keeping
`stop` in the second part (authority/path split of `url.Parse`). -/
def listSpanUntil (stop : Char) : List Char → List Char × List Char
  | [] => ([], [])
  | c :: rest =>
    if c = stop then ([], c :: rest)
    else
      let (a, b) := listSpanUntil stop rest
      (c :: a, b)

/-- The host part of an authority: everything after the last `@`
(userinfo is dropped, as in `parseAuthority`). -/
def hostOfAuthority (auth : List Char) : List Char :=
  (auth.reverse.takeWhile (fun c => c != '@')).reverse

/-- Model of Go `url.Parse` restricted to the observed fields. -/
def urlParse (raw : String) : Option GoURL :=
  if raw.data.any ctlByte then none
  else
    let (rest, frag) :=
      match listCutChar '#' raw.data with
      | none => (raw.data, ([] : List Char))
      | some (a, b) => (a, b)
    let res := getSchemeAux [] rest
    match res with
    | .err => none
    | _ =>
      let (scheme, rest) :=
        match res with
        | .found s r => (s.map Char.toLower, r)
        | _ => ([], rest)
      let (rest, query) :=
        match listCutChar '?' rest with
        | none => (rest, ([] : List Char))
        | some (a, b) => (a, b)
      match rest with
      | '/' :: '/' :: after =>
        let (authority, path) := listSpanUntil '/' after
        some ⟨⟨scheme⟩, ⟨hostOfAuthority authority⟩, ⟨path⟩, ⟨query⟩, ⟨frag⟩⟩
      | _ => some ⟨⟨scheme⟩, "", ⟨rest⟩, ⟨query⟩, ⟨frag⟩⟩

/-! ### URI validation (src/util.go) -/

/-- Decidable equality for `Except`, so concrete runs can be settled
by `decide`. -/
instance {ε α : Type} [DecidableEq ε] [DecidableEq α] : DecidableEq (Except ε α) :=
  fun a b =>
    match a, b with
    | .error x, .error y =>
      if h : x = y then .isTrue (by rw [h])
      else .isFalse (by intro hc; injection hc; contradiction)
    | .ok x, .ok y =>
      if h : x = y then .isTrue (by rw [h])
      else .isFalse (by intro hc; injection hc; contradiction)
    | .error _, .ok _ => .isFalse (by intro hc; exact Except.noConfusion hc)
    | .ok _, .error _ => .isFalse (by intro hc; exact Except.noConfusion hc)

/-- Errors of `validateURI`; `validation` corresponds to
`URIValidationError`, the other constructors to the plain errors. -/
inductive URIErr where
  | blank
  | parseErr
  | fragmentPresent
  | validation (msg : String)
deriving DecidableEq, Repr

/-- `validateURI(baseURI, redirectURI)` (src/util.go:179-228):
validates that `redirectURI` is contained in `baseURI`. -/
def validateURI (baseURI redirectURI : String) : Except URIErr Unit :=
  if baseURI = "" ∨ redirectURI = "" then .error .blank
  else
    match urlParse baseURI with
    | none => .error .parseErr
    | some base =>
      match urlParse redirectURI with
      | none => .error .parseErr
      | some redirect =>
        if base.fragment ≠ "" ∨ redirect.fragment ≠ "" then .error .fragmentPresent
        else if base.scheme ≠ redirect.scheme then .error (.validation "scheme mismatch")
        else if base.host ≠ redirect.host then .error (.validation "host mismatch")
        else if base.path = redirect.path then .ok ()
        else
          let requiredPre := goTrimRightChar base.path '/' ++ "/"
          if ¬ goStartsWith redirect.path requiredPre then
            .error (.validation "path is not a subpath")
          else if (goSplitChar (goTrimStart redirect.path requiredPre) '/').any
              (fun s => s = "..") then
            .error (.validation "subpath cannot contain path traversal")
          else .ok ()

/-- The specification's success condition for `validateURI` (spec §4.A,
stated in the spec's words, for comparison with the source function):
both non-empty, parseable, fragment-free; equal scheme and host; and
the paths exactly equal, or the candidate path extends the base path
(trailing slashes of the base normalized away, a `/` appended) with no
residual `/`-separated segment equal to `..`. -/
def validateURISpec (baseURI redirectURI : String) : Prop :=
  baseURI ≠ "" ∧ redirectURI ≠ "" ∧
    ∃ base redirect, urlParse baseURI = some base ∧ urlParse redirectURI = some redirect ∧
      base.fragment = "" ∧ redirect.fragment = "" ∧
      base.scheme = redirect.scheme ∧ base.host = redirect.host ∧
      (base.path = redirect.path ∨
        (goStartsWith redirect.path (goTrimRightChar base.path '/' ++ "/") = true ∧
          ∀ seg ∈ goSplitChar
              (goTrimStart redirect.path (goTrimRightChar base.path '/' ++ "/")) '/',
            seg ≠ ".."))

/-! ### Data model

Clients, requests, grants and responses (src/client.go, src/authorize.go,
the response and info files). -/

/-- Opaque `interface{}` user payload (never inspected by the library). -/
abbrev UserData := Option String

/-- A client record.  `matcher` is `some` exactly when the client value
also implements the optional `ClientSecretMatcher` interface, in which
case it is the `ClientSecretMatches` method. -/
structure ClientM where
  id : String
  secret : String
  redirectURI : String
  userData : UserData
  matcher : Option (String → Bool)

/-- The basic authentication header data. -/
structure BasicAuth where
  username : String
  password : String
deriving DecidableEq, Repr

/-- The parts of an `http.Request` the embedded functions observe:
the `Authorization` header and the parsed form values. -/
structure HttpRequest where
  authorization : String
  form : List (String × String)
deriving DecidableEq, Repr

/-- First value for a key in a form, `""` when absent. -/
def formLookup : List (String × String) → String → String
  | [], _ => ""
  | (k0, v0) :: rest, k => if k0 = k then v0 else formLookup rest k

/-- Go `r.Form.Get(k)`: first value for the key, `""` when absent. -/
def HttpRequest.formGet (r : HttpRequest) (k : String) : String :=
  formLookup r.form k

/-- Outcome of `checkBearerAuth`: no auth (`nil` result), a bearer
token, or a Go runtime panic (out-of-range slice index). -/
inductive BearerOut where
  | panicked
  | noAuth
  | auth (code : String)
deriving DecidableEq, Repr

/-- `checkBearerAuth(r)` (src/util.go:51-67).  The `s[1]` index is
taken only when it exists; otherwise the Go code panics, modelled by
`BearerOut.panicked`. -/
def checkBearerAuth (r : HttpRequest) : BearerOut :=
  let authHeader := r.authorization
  let authForm := r.formGet "code"
  if authHeader = "" ∧ authForm = "" then .noAuth
  else
    let token := authForm
    if authHeader ≠ "" then
      let s := goSplitN2 authHeader ' '
      if (s.length ≠ 2 ∨ s.head? ≠ some "Bearer") ∧ token = "" then .noAuth
      else
        match s.get? 1 with
        | some t => .auth t
        | none => .panicked
    else .auth token

/-- `ResponseError` (src/error.go). -/
structure ResponseError where
  code : Int
  etype : String
  title : String
  desc : String
deriving DecidableEq, Repr

def ErrInvalidRequest : ResponseError :=
  ⟨200, "invalid_request", "Invalid Request",
    "The request is missing a required parameter, includes an invalid parameter value, includes a parameter more than once, or is otherwise malformed."⟩

def ErrUnauthorizedClient : ResponseError :=
  ⟨200, "unauthorized_client", "Unauthorized Client",
    "The client is not authorized to request a token using this method."⟩

def ErrAccessDenied : ResponseError :=
  ⟨200, "access_denied", "Access Denied",
    "The resource owner or authorization server denied the request."⟩

def ErrServerError : ResponseError :=
  ⟨200, "server_error", "Server Error",
    "The authorization server encountered an unexpected condition that prevented it from fulfilling the request."⟩

def ErrInvalidGrant : ResponseError :=
  ⟨200, "invalid_grant", "Invalid Grant",
    "The provided authorization grant (e.g., authorization code, resource owner credentials) or refresh token is invalid, expired, revoked, does not match the redirection URI used in the authorization request, or was issued to another client."⟩

def ErrInvalidClient : ResponseError :=
  ⟨200, "invalid_client", "Invalid Client",
    "Client authentication failed (e.g., unknown client, no client authentication included, or unsupported authentication method)."⟩

/-- Response type enum (`DATA`, `REDIRECT`). -/
inductive RespType where
  | data
  | redirect
deriving DecidableEq, Repr

/-- A value stored in the response output map. -/
inductive OutVal where
  | str (s : String)
  | int (n : Int)
deriving DecidableEq, Repr

/-- Sets key `k` to `v` in an output map (Go map assignment:
replace the existing entry or add a new one). -/
def setOut (m : List (String × OutVal)) (k : String) (v : OutVal) :
    List (String × OutVal) :=
  match m with
  | [] => [(k, v)]
  | (k0, v0) :: rest => if k0 = k then (k, v) :: rest else (k0, v0) :: setOut rest k v

/-- Looks up key `k` in an output map. -/
def lookupOut : List (String × OutVal) → String → Option OutVal
  | [], _ => none
  | (k0, v0) :: rest, k => if k0 = k then some v0 else lookupOut rest k

/-- The `Response` structure (the storage reference is modelled as
explicit oracle arguments of the functions instead of a field). -/
structure Response where
  responseType : RespType
  statusCode : Int
  statusText : String
  httpStatusCode : Int
  url : String
  output : List (String × OutVal)
  headers : List (String × String)
  isError : Bool
  errorId : String
  internalError : Option String
  redirectInFragment : Bool

/-- `NewResponse` with the default error HTTP status 200. -/
def NewResponse : Response :=
  { responseType := .data, statusCode := 200, statusText := "",
    httpStatusCode := 200, url := "", output := [],
    headers := [("Cache-Control", "no-cache, no-store, max-age=0, must-revalidate"),
                ("Pragma", "no-cache"),
                ("Expires", "Fri, 01 Jan 1990 00:00:00 GMT")],
    isError := false, errorId := "", internalError := none,
    redirectInFragment := false }

/-- `Response.SetError(e, state...)`: marks the error, clears the
output, writes `error` and `error_description`, and echoes `state`
only when the variadic argument is present and non-empty. -/
def Response.setError (r : Response) (e : ResponseError) (state : List String) :
    Response :=
  let out : List (String × OutVal) :=
    [("error", .str e.etype), ("error_description", .str e.desc)]
  let out :=
    match state with
    | s0 :: _ => if s0 ≠ "" then setOut out "state" (.str s0) else out
    | [] => out
  { r with isError := true, errorId := e.etype,
           statusCode := r.httpStatusCode,
           statusText := if r.httpStatusCode ≠ 200 then e.desc else "",
           output := out }

/-- Assignment to `Response.InternalError`. -/
def Response.setInternal (r : Response) (e : String) : Response :=
  { r with internalError := some e }

/-- `Response.SetRedirect(url)`. -/
def Response.setRedirect (r : Response) (u : String) : Response :=
  { r with responseType := .redirect, url := u }

/-- `Response.SetRedirectFragment(f)`. -/
def Response.setRedirectFragment (r : Response) (f : Bool) : Response :=
  { r with redirectInFragment := f }

/-- Assignment `w.Output[k] = v`. -/
def Response.setOutput (r : Response) (k : String) (v : OutVal) : Response :=
  { r with output := setOut r.output k v }

/-- `AuthorizeData` (src/authorize.go); times in seconds. -/
structure AuthorizeData where
  client : Option ClientM
  code : String
  expiresIn : Int
  scope : String
  redirectURI : String
  state : String
  createdAt : Int
  userData : UserData

/-- `AccessGrant` (src/client.go): the `AccessGrant` field is the
previous grant consumed by a refresh, hence the nested recursion. -/
inductive AccessGrant : Type where
  | mk (client : Option ClientM) (authorizeData : Option AuthorizeData)
      (accessGrant : Option AccessGrant) (accessToken refreshToken : String)
      (expiresIn : Int) (scope redirectURI : String) (createdAt : Int)
      (userData : UserData)

def AccessGrant.client : AccessGrant → Option ClientM
  | .mk c _ _ _ _ _ _ _ _ _ => c

def AccessGrant.authorizeData : AccessGrant → Option AuthorizeData
  | .mk _ ad _ _ _ _ _ _ _ _ => ad

def AccessGrant.accessGrant : AccessGrant → Option AccessGrant
  | .mk _ _ pg _ _ _ _ _ _ _ => pg

def AccessGrant.accessToken : AccessGrant → String
  | .mk _ _ _ tok _ _ _ _ _ _ => tok

def AccessGrant.refreshToken : AccessGrant → String
  | .mk _ _ _ _ rtok _ _ _ _ _ => rtok

def AccessGrant.expiresIn : AccessGrant → Int
  | .mk _ _ _ _ _ e _ _ _ _ => e

def AccessGrant.scope : AccessGrant → String
  | .mk _ _ _ _ _ _ sc _ _ _ => sc

def AccessGrant.redirectURI : AccessGrant → String
  | .mk _ _ _ _ _ _ _ ru _ _ => ru

def AccessGrant.createdAt : AccessGrant → Int
  | .mk _ _ _ _ _ _ _ _ ca _ => ca

def AccessGrant.userData : AccessGrant → UserData
  | .mk _ _ _ _ _ _ _ _ _ ud => ud

/-- The assignments `ret.AccessToken, ret.RefreshToken, err = ...`. -/
def AccessGrant.withTokens : AccessGrant → String → String → AccessGrant
  | .mk c ad pg _ _ e sc ru ca ud, tok, rtok => .mk c ad pg tok rtok e sc ru ca ud

/-- `AccessRequest` (src/client.go); grant type kept as its string. -/
structure AccessRequest where
  grantType : String
  code : String
  client : Option ClientM
  authorizeData : Option AuthorizeData
  accessGrant : Option AccessGrant
  forceAccessGrant : Option AccessGrant
  redirectURI : String
  scope : String
  username : String
  password : String
  assertionType : String
  assertion : String
  authorized : Bool
  expiration : Int
  generateRefresh : Bool
  userData : UserData

/-- The Go zero value of `AccessRequest` (unset struct-literal fields). -/
def AccessRequest.zero : AccessRequest :=
  { grantType := "", code := "", client := none, authorizeData := none,
    accessGrant := none, forceAccessGrant := none, redirectURI := "",
    scope := "", username := "", password := "", assertionType := "",
    assertion := "", authorized := false, expiration := 0,
    generateRefresh := false, userData := none }

/-- `AuthorizeRequest` (src/authorize.go); `rtype` is the `Type` field. -/
structure AuthorizeRequest where
  rtype : String
  client : Option ClientM
  scope : String
  redirectURI : String
  state : String
  authorized : Bool
  expiration : Int
  userData : UserData

/-- `InfoRequest`. -/
structure InfoRequest where
  code : String
  accessGrant : Option AccessGrant

/-! ### Storage and server model

Storage is an interface; its behaviour is an oracle (which calls
succeed), and the functions additionally return the ordered trace of
the storage operations they invoked. -/

/-- A storage call performed by a handler, in invocation order. -/
inductive StorageOp where
  | saveAuthorizeData (data : AuthorizeData)
  | removeAuthorizeData (code : String)
  | saveAccessGrant (grant : AccessGrant)
  | removeRefreshGrant (token : String)
  | removeAccessGrant (token : String)

/-- Is this operation a removal of consumed state? -/
def StorageOp.isRemove : StorageOp → Bool
  | .removeAuthorizeData _ => true
  | .removeRefreshGrant _ => true
  | .removeAccessGrant _ => true
  | _ => false

/-- Which storage calls succeed (`true` = the call returns `nil`). -/
structure StorageOracle where
  saveAuthorizeDataOk : AuthorizeData → Bool
  saveAccessGrantOk : AccessGrant → Bool
  removeAuthorizeDataOk : String → Bool
  removeRefreshGrantOk : String → Bool
  removeAccessGrantOk : String → Bool

/-- The server facade: configuration fields the embedded functions
read, the clock, and the pluggable token generators
(`GenerateAuthorizeToken`, `GenerateAccessToken`). -/
structure ServerM where
  tokenType : String
  accessExpiration : Int
  now : Int
  authGen : AuthorizeData → Except String String
  accessGen : AccessGrant → Bool → Except String (String × String)

/-! ### Client authentication (src/client.go:574-606) -/

/-- `getClient(auth, storage, w)`: looks up and authenticates the
client; `getC` is `storage.GetClient`.  When the client implements
`ClientSecretMatcher` (`matcher = some m`) the secret is compared via
`m`, and `GetSecret` is not consulted; otherwise the plain secret is
compared. -/
def getClient (getC : String → Except String (Option ClientM))
    (auth : BasicAuth) (w : Response) : Option ClientM × Response :=
  match getC auth.username with
  | .error e => (none, (w.setError ErrServerError []).setInternal e)
  | .ok none => (none, w.setError ErrUnauthorizedClient [])
  | .ok (some client) =>
    match client.matcher with
    | some m =>
      if ¬ m auth.password then (none, w.setError ErrUnauthorizedClient [])
      else if client.redirectURI = "" then (none, w.setError ErrUnauthorizedClient [])
      else (some client, w)
    | none =>
      if client.secret ≠ auth.password then (none, w.setError ErrUnauthorizedClient [])
      else if client.redirectURI = "" then (none, w.setError ErrUnauthorizedClient [])
      else (some client, w)

/-! ### Refresh-token grant (src/client.go:303-398) -/

/-- `extraScopes(accessScopes, refreshScopes)`: is some non-empty
comma-separated element of `refreshScopes` absent from the non-empty
elements of `accessScopes`? -/
def extraScopes (accessScopes refreshScopes : String) : Bool :=
  let accessScopesList := goSplitChar accessScopes ','
  let refreshScopesList := goSplitChar refreshScopes ','
  let accessMap := accessScopesList.filter (fun sc => sc != "")
  refreshScopesList.any (fun sc => sc != "" && !(accessMap.contains sc))

/-- The body of `handleRefreshTokenRequest` after client
authentication succeeded (src/client.go:334-397); `client` is the
result of `getClient` and `loadRefreshGrant` is
`w.Storage.LoadRefreshGrant`. -/
def handleRefreshTokenRequestAuthed (s : ServerM)
    (loadRefreshGrant : String → Except String (Option AccessGrant))
    (w : Response) (r : HttpRequest) (client : ClientM) :
    Option AccessRequest × Response :=
  let ret := { AccessRequest.zero with
    grantType := "refresh_token", code := r.formGet "refresh_token",
    scope := r.formGet "scope", generateRefresh := true,
    expiration := s.accessExpiration, client := some client }
  if ret.code = "" then (none, w.setError ErrInvalidGrant [])
  else
    match loadRefreshGrant ret.code with
    | .error e => (none, (w.setError ErrInvalidGrant []).setInternal e)
    | .ok none => (none, w.setError ErrUnauthorizedClient [])
    | .ok (some prev) =>
      match prev.client with
      | none => (none, w.setError ErrUnauthorizedClient [])
      | some pc =>
        if pc.redirectURI = "" then (none, w.setError ErrUnauthorizedClient [])
        else if pc.id ≠ client.id then
          (none, (w.setError ErrInvalidClient []).setInternal
            "Client id must be the same from previous token")
        else
          let ret := { ret with accessGrant := some prev,
                                redirectURI := prev.redirectURI,
                                userData := prev.userData }
          let ret := if ret.scope = "" then { ret with scope := prev.scope } else ret
          if extraScopes prev.scope ret.scope then
            (none, (w.setError ErrAccessDenied []).setInternal
              "the requested scope must not include any scope not originally granted by the resource owner")
          else (some ret, w)

/-! ### Token finalization (src/client.go:497-568) -/

/-- The `redirectURI` local of `FinishAccessRequest` (lines 502-506). -/
def finishRedirectURI (r : HttpRequest) (ar : AccessRequest) : String :=
  if ar.redirectURI ≠ "" then ar.redirectURI else r.formGet "redirect_uri"

/-- The fresh `AccessGrant` built when `ForceAccessGrant` is nil
(lines 513-522), before token generation. -/
def accessGrantFor (s : ServerM) (redirectURI : String) (ar : AccessRequest) :
    AccessGrant :=
  .mk ar.client ar.authorizeData ar.accessGrant "" "" ar.expiration ar.scope
    redirectURI s.now ar.userData

/-- The grant that reaches `SaveAccessGrant`: the forced grant, or the
fresh grant with the generated tokens (lines 511-533). -/
def finishAccessGrantResult (s : ServerM) (redirectURI : String)
    (ar : AccessRequest) : Except String AccessGrant :=
  match ar.forceAccessGrant with
  | none =>
    let ret := accessGrantFor s redirectURI ar
    match s.accessGen ret ar.generateRefresh with
    | .error e => .error e
    | .ok (tok, rtok) => .ok (ret.withTokens tok rtok)
  | some g => .ok g

/-- `FinishAccessRequest(w, r, ar)` (src/client.go:497-568), returning
the updated response and the ordered storage-call trace.  The results
of the three `Remove*` calls are discarded, exactly as in the source. -/
def FinishAccessRequest (s : ServerM) (stor : StorageOracle) (w : Response)
    (r : HttpRequest) (ar : AccessRequest) : Response × List StorageOp :=
  if w.isError then (w, [])
  else if ar.authorized then
    match finishAccessGrantResult s (finishRedirectURI r ar) ar with
    | .error e => ((w.setError ErrServerError []).setInternal e, [])
    | .ok ret =>
      if stor.saveAccessGrantOk ret then
        let trace := [StorageOp.saveAccessGrant ret]
        let trace := trace ++
          (match ret.authorizeData with
           | some ad => [StorageOp.removeAuthorizeData ad.code]
           | none => [])
        let trace := trace ++
          (match ret.accessGrant with
           | some pg =>
             (if pg.refreshToken ≠ "" then [StorageOp.removeRefreshGrant pg.refreshToken]
              else []) ++ [StorageOp.removeAccessGrant pg.accessToken]
           | none => [])
        let w := w.setOutput "access_token" (.str ret.accessToken)
        let w := w.setOutput "token_type" (.str s.tokenType)
        let w := w.setOutput "expires_in" (.int ret.expiresIn)
        let w := if ret.refreshToken ≠ "" then
            w.setOutput "refresh_token" (.str ret.refreshToken) else w
        let w := if ar.scope ≠ "" then w.setOutput "scope" (.str ar.scope) else w
        (w, trace)
      else
        ((w.setError ErrServerError []).setInternal "save access grant failed",
          [StorageOp.saveAccessGrant ret])
  else (w.setError ErrAccessDenied [], [])

/-! ### Authorization finalization (src/authorize.go:163-230) -/

/-- The `AuthorizeData` built by the code branch of
`FinishAuthorizeRequest` (lines 196-204), before code generation. -/
def authDataFor (s : ServerM) (ar : AuthorizeRequest) : AuthorizeData :=
  { client := ar.client, code := "", expiresIn := ar.expiration,
    scope := ar.scope, redirectURI := ar.redirectURI, state := ar.state,
    createdAt := s.now, userData := ar.userData }

/-- The implicit-flow `AccessRequest` synthesized by the token branch
(lines 178-188). -/
def implicitAccessRequest (ar : AuthorizeRequest) : AccessRequest :=
  { AccessRequest.zero with
    grantType := "__implicit", code := "", client := ar.client,
    redirectURI := ar.redirectURI, scope := ar.scope,
    generateRefresh := false, authorized := true,
    expiration := ar.expiration, userData := ar.userData }

/-- `FinishAuthorizeRequest(w, r, ar)` (src/authorize.go:164-230). -/
def FinishAuthorizeRequest (s : ServerM) (stor : StorageOracle) (w : Response)
    (r : HttpRequest) (ar : AuthorizeRequest) : Response × List StorageOp :=
  if w.isError then (w, [])
  else
    let w := w.setRedirect ar.redirectURI
    if ar.authorized then
      if ar.rtype = "token" then
        let w := w.setRedirectFragment true
        let (w, trace) := FinishAccessRequest s stor w r (implicitAccessRequest ar)
        let w := if ar.state ≠ "" ∧ w.internalError = none then
            w.setOutput "state" (.str ar.state) else w
        (w, trace)
      else
        let ret := authDataFor s ar
        match s.authGen ret with
        | .error e => ((w.setError ErrServerError [ar.state]).setInternal e, [])
        | .ok code =>
          let ret := { ret with code := code }
          if stor.saveAuthorizeDataOk ret then
            let w := w.setOutput "code" (.str ret.code)
            let w := w.setOutput "state" (.str ret.state)
            (w, [StorageOp.saveAuthorizeData ret])
          else
            ((w.setError ErrServerError [ar.state]).setInternal
              "save authorize data failed", [StorageOp.saveAuthorizeData ret])
    else (w.setError ErrAccessDenied [ar.state], [])

/-! ### Info finalization (FinishInfoRequest) -/

/-- `FinishInfoRequest(w, r, ir)`: `none` models the nil-pointer
dereference that a nil grant or nil client would cause; the body
performs no storage calls. -/
def FinishInfoRequest (s : ServerM) (w : Response) (ir : InfoRequest) :
    Option (Response × List StorageOp) :=
  if w.isError then some (w, [])
  else
    match ir.accessGrant with
    | none => none
    | some ag =>
      match ag.client with
      | none => none
      | some c =>
        let w := w.setOutput "client_id" (.str c.id)
        let w := w.setOutput "access_token" (.str ag.accessToken)
        let w := w.setOutput "token_type" (.str s.tokenType)
        let w := w.setOutput "expires_in" (.int (ag.createdAt + ag.expiresIn - s.now))
        let w := if ag.refreshToken ≠ "" then
            w.setOutput "refresh_token" (.str ag.refreshToken) else w
        let w := if ag.scope ≠ "" then w.setOutput "scope" (.str ag.scope) else w
        some (w, [])

/-! ### Concrete fixtures

Test fixtures mirroring the repository's `NewTestStorage` data, used
to instantiate the theorems on concrete runs. -/

/-- A server with the default configuration and counting-style test
generators. -/
def testServer : ServerM :=
  { tokenType := "Bearer", accessExpiration := 3600, now := 0,
    authGen := fun _ => .ok "1",
    accessGen := fun _ gen => .ok ("1", if gen then "r1" else "") }

/-- Storage whose calls all succeed. -/
def allOkStorage : StorageOracle :=
  ⟨fun _ => true, fun _ => true, fun _ => true, fun _ => true, fun _ => true⟩

/-- Storage that fails every `RemoveAuthorizeData` call. -/
def failRemoveStorage : StorageOracle :=
  { allOkStorage with removeAuthorizeDataOk := fun _ => false }

/-- A stored authorization code, as in `NewTestStorage`. -/
def testAuthData : AuthorizeData :=
  { client := none, code := "9999", expiresIn := 3600, scope := "",
    redirectURI := "http://localhost:14000/appauth", state := "",
    createdAt := 0, userData := none }

/-- A grant consuming `testAuthData`. -/
def testGrant : AccessGrant :=
  .mk none (some testAuthData) none "tok1" "" 3600 "" "" 0 none

/-- An authorized access request replaying `testGrant`. -/
def testAccessRequest : AccessRequest :=
  { AccessRequest.zero with authorized := true, forceAccessGrant := some testGrant }

/-- A request with no header and no form values. -/
def emptyRequest : HttpRequest := ⟨"", []⟩

/-- The stored client `1234`, without the matcher capability. -/
def testClient : ClientM :=
  ⟨"1234", "aabbccdd", "http://localhost:14000/appauth", none, none⟩

/-- A client that implements `ClientSecretMatcher`. -/
def matcherClient : ClientM :=
  ⟨"1234", "plain-secret", "http://localhost:14000/appauth", none,
    some (fun pw => pw == "pw")⟩

/-- A previous grant with scope `a,b`, loadable by refresh token. -/
def prevGrantFix : AccessGrant :=
  .mk (some testClient) none none "9999" "r9999" 3600 "a,b"
    "http://localhost:14000/appauth" 0 none

/-- A refresh request widening the scope to `b,a,c`. -/
def refreshDenyRequest : HttpRequest :=
  ⟨"", [("refresh_token", "r9999"), ("scope", "b,a,c")]⟩

/-- An authorized `response_type=code` request with empty state. -/
def codeAuthRequest : AuthorizeRequest :=
  { rtype := "code", client := some testClient, scope := "",
    redirectURI := "http://localhost:14000/appauth", state := "",
    authorized := true, expiration := 250, userData := none }

/-- A response already carrying an error. -/
def errorResponse : Response := NewResponse.setError ErrInvalidRequest []

/-! ## Theorems -/

/-- Writing a key then reading it back. -/
theorem lookupOut_setOut_self (m : List (String × OutVal)) (k : String) (v : OutVal) :
    lookupOut (setOut m k v) k = some v := by
  induction m with
  | nil => simp [setOut, lookupOut]
  | cons p rest ih =>
    obtain ⟨k0, v0⟩ := p
    by_cases h : k0 = k
    · simp [setOut, h, lookupOut]
    · simp [setOut, h, lookupOut, ih]

/-- Writing one key leaves other keys unchanged. -/
theorem lookupOut_setOut_ne (m : List (String × OutVal)) (k w : String) (v : OutVal)
    (h : w ≠ k) : lookupOut (setOut m w v) k = lookupOut m k := by
  induction m with
  | nil => simp [setOut, lookupOut, h]
  | cons p rest ih =>
    obtain ⟨k0, v0⟩ := p
    by_cases h0 : k0 = w
    · simp [setOut, h0, lookupOut, h]
    · simp [setOut, h0, lookupOut, ih]

/-- C1 (amended): after the new `AccessGrant` has been saved, storage
errors returned by the removal of consumed state are discarded: for
every authorized access request whose grant was produced and saved, the
response is a success response carrying `access_token`, `token_type`
and `expires_in`, regardless of the removal results (the statement
assumes nothing about the `remove*` oracles). -/
theorem claim_C1_amended (s : ServerM) (stor : StorageOracle) (w : Response)
    (r : HttpRequest) (ar : AccessRequest) (g : AccessGrant)
    (hw : w.isError = false) (ha : ar.authorized = true)
    (hg : finishAccessGrantResult s (finishRedirectURI r ar) ar = Except.ok g)
    (hsave : stor.saveAccessGrantOk g = true) :
    (FinishAccessRequest s stor w r ar).1.isError = false ∧
    lookupOut (FinishAccessRequest s stor w r ar).1.output "access_token" =
      some (OutVal.str g.accessToken) ∧
    lookupOut (FinishAccessRequest s stor w r ar).1.output "token_type" =
      some (OutVal.str s.tokenType) ∧
    lookupOut (FinishAccessRequest s stor w r ar).1.output "expires_in" =
      some (OutVal.int g.expiresIn) := by
  unfold FinishAccessRequest
  rw [if_neg (by simp [hw]), if_pos ha, hg]
  dsimp only
  rw [if_pos hsave]
  dsimp only
  refine ⟨?_, ?_, ?_, ?_⟩ <;> split_ifs <;>
    simp [Response.setOutput, lookupOut_setOut_self, lookupOut_setOut_ne, hw]

/-- The storage trace of `FinishAccessRequest` is empty, a single
failed save, or a successful save followed by the removals. -/
theorem finishAccess_trace_cases (s : ServerM) (stor : StorageOracle) (w : Response)
    (r : HttpRequest) (ar : AccessRequest) :
    (FinishAccessRequest s stor w r ar).2 = [] ∨
    (∃ ret, (FinishAccessRequest s stor w r ar).2 = [StorageOp.saveAccessGrant ret]) ∨
    (∃ ret rest, stor.saveAccessGrantOk ret = true ∧
      (FinishAccessRequest s stor w r ar).2 = StorageOp.saveAccessGrant ret :: rest) := by
  unfold FinishAccessRequest
  split
  · left; rfl
  split
  · split
    · left; rfl
    · rename_i g hg2
      split
      · rename_i hok
        right; right
        exact ⟨g, _, hok, rfl⟩
      · right; left
        exact ⟨g, rfl⟩
  · left; rfl

/-- C2: in `FinishAccessRequest`, every removal of consumed state
(`RemoveAuthorizeData`, `RemoveRefreshGrant`, `RemoveAccessGrant`) in
the storage trace is preceded by the `SaveAccessGrant` of the new
grant at the head of the trace, and that save succeeded — so no
removal is ever performed when saving the new grant failed. -/
theorem claim_C2_save_precedes_removals (s : ServerM) (stor : StorageOracle)
    (w : Response) (r : HttpRequest) (ar : AccessRequest) (op : StorageOp)
    (hmem : op ∈ (FinishAccessRequest s stor w r ar).2)
    (hrem : op.isRemove = true) :
    ∃ g, (FinishAccessRequest s stor w r ar).2.head? =
        some (StorageOp.saveAccessGrant g) ∧
      stor.saveAccessGrantOk g = true := by
  rcases finishAccess_trace_cases s stor w r ar with h | ⟨ret, h⟩ | ⟨ret, rest, hok, h⟩
  · rw [h] at hmem; cases hmem
  · rw [h] at hmem
    rw [List.mem_singleton] at hmem
    subst hmem
    simp [StorageOp.isRemove] at hrem
  · exact ⟨ret, by rw [h]; rfl, hok⟩

/-- C2 witness: a concrete authorized run whose trace contains the
removal of the consumed authorization code. -/
theorem claim_C2_save_precedes_removals_witness :
    ∃ g, (FinishAccessRequest testServer allOkStorage NewResponse emptyRequest
        testAccessRequest).2.head? = some (StorageOp.saveAccessGrant g) ∧
      allOkStorage.saveAccessGrantOk g = true := by
  refine claim_C2_save_precedes_removals testServer allOkStorage NewResponse
    emptyRequest testAccessRequest (StorageOp.removeAuthorizeData "9999") ?_ rfl
  rw [show (FinishAccessRequest testServer allOkStorage NewResponse emptyRequest
      testAccessRequest).2 =
      [StorageOp.saveAccessGrant testGrant, StorageOp.removeAuthorizeData "9999"] from rfl]
  exact List.mem_cons_of_mem _ (List.mem_singleton.mpr rfl)

/-- C1 counterexample: an authorized request consuming the
authorization code `9999` whose `RemoveAuthorizeData` call fails; the
removal is attempted (it is in the trace) and its error is discarded:
the response is not `server_error` and still carries the full success
output, against the claim. -/
theorem claim_C1_counterexample :
    (FinishAccessRequest testServer failRemoveStorage NewResponse emptyRequest
        testAccessRequest).2 =
      [StorageOp.saveAccessGrant testGrant, StorageOp.removeAuthorizeData "9999"] ∧
    failRemoveStorage.removeAuthorizeDataOk "9999" = false ∧
    (FinishAccessRequest testServer failRemoveStorage NewResponse emptyRequest
        testAccessRequest).1.isError = false ∧
    lookupOut (FinishAccessRequest testServer failRemoveStorage NewResponse emptyRequest
        testAccessRequest).1.output "access_token" = some (OutVal.str "tok1") ∧
    lookupOut (FinishAccessRequest testServer failRemoveStorage NewResponse emptyRequest
        testAccessRequest).1.output "token_type" = some (OutVal.str "Bearer") ∧
    lookupOut (FinishAccessRequest testServer failRemoveStorage NewResponse emptyRequest
        testAccessRequest).1.output "expires_in" = some (OutVal.int 3600) :=
  ⟨rfl, rfl, rfl, rfl, rfl, rfl⟩

/-- C1 witness: the amended theorem applied to the same failing-removal
run. -/
theorem claim_C1_amended_witness :
    (FinishAccessRequest testServer failRemoveStorage NewResponse emptyRequest
        testAccessRequest).1.isError = false :=
  (claim_C1_amended testServer failRemoveStorage NewResponse emptyRequest
    testAccessRequest testGrant rfl rfl rfl rfl).1


/-- `validateURI` succeeds exactly under the specification's
conditions. -/
theorem validateURI_ok_iff (b r : String) :
    validateURI b r = Except.ok () ↔ validateURISpec b r := by
  unfold validateURI validateURISpec
  by_cases hb : b = ""
  · simp [hb]
  by_cases hr : r = ""
  · simp [hb, hr]
  rw [if_neg (by simp [hb, hr])]
  cases hub : urlParse b with
  | none => simp
  | some ub =>
    cases hur : urlParse r with
    | none => simp
    | some ur =>
      dsimp only
      have noconf : ∀ {msg : URIErr},
          (Except.error msg : Except URIErr Unit) ≠ Except.ok () :=
        fun hc => Except.noConfusion hc
      by_cases hf1 : ub.fragment = ""
      rotate_left
      · rw [if_pos (Or.inl hf1)]
        refine iff_of_false noconf ?_
        rintro ⟨-, -, base, redirect, hbase, hredirect, hh1, -⟩
        injection hbase with hbase
        subst hbase
        exact hf1 hh1
      by_cases hf2 : ur.fragment = ""
      rotate_left
      · rw [if_pos (Or.inr hf2)]
        refine iff_of_false noconf ?_
        rintro ⟨-, -, base, redirect, hbase, hredirect, -, hh2, -⟩
        injection hredirect with hredirect
        subst hredirect
        exact hf2 hh2
      rw [if_neg (by simp [hf1, hf2])]
      by_cases hs : ub.scheme = ur.scheme
      rotate_left
      · rw [if_pos hs]
        refine iff_of_false noconf ?_
        rintro ⟨-, -, base, redirect, hbase, hredirect, -, -, hh3, -⟩
        injection hbase with hbase
        injection hredirect with hredirect
        subst hbase; subst hredirect
        exact hs hh3
      rw [if_neg (not_not_intro hs)]
      by_cases hh : ub.host = ur.host
      rotate_left
      · rw [if_pos hh]
        refine iff_of_false noconf ?_
        rintro ⟨-, -, base, redirect, hbase, hredirect, -, -, -, hh4, -⟩
        injection hbase with hbase
        injection hredirect with hredirect
        subst hbase; subst hredirect
        exact hh hh4
      rw [if_neg (not_not_intro hh)]
      by_cases hp : ub.path = ur.path
      · rw [if_pos hp]
        exact iff_of_true rfl ⟨hb, hr, ub, ur, rfl, rfl, hf1, hf2, hs, hh, Or.inl hp⟩
      rw [if_neg hp]
      by_cases hpre : goStartsWith ur.path (goTrimRightChar ub.path '/' ++ "/") = true
      rotate_left
      · rw [if_pos hpre]
        refine iff_of_false noconf ?_
        rintro ⟨-, -, base, redirect, hbase, hredirect, -, -, -, -, hor⟩
        injection hbase with hbase
        injection hredirect with hredirect
        subst hbase; subst hredirect
        rcases hor with hc | ⟨hc, -⟩
        · exact hp hc
        · exact hpre hc
      rw [if_neg (not_not_intro hpre)]
      by_cases hany : ((goSplitChar
          (goTrimStart ur.path (goTrimRightChar ub.path '/' ++ "/")) '/').any
            (fun s => decide (s = ".."))) = true
      · rw [if_pos hany]
        refine iff_of_false noconf ?_
        rintro ⟨-, -, base, redirect, hbase, hredirect, -, -, -, -, hor⟩
        injection hbase with hbase
        injection hredirect with hredirect
        subst hbase; subst hredirect
        rcases hor with hc | ⟨-, hseg⟩
        · exact hp hc
        · rw [List.any_eq_true] at hany
          obtain ⟨seg, hmem, hdec⟩ := hany
          exact hseg seg hmem (of_decide_eq_true hdec)
      · rw [if_neg hany]
        refine iff_of_true rfl
          ⟨hb, hr, ub, ur, rfl, rfl, hf1, hf2, hs, hh, Or.inr ⟨hpre, ?_⟩⟩
        intro seg hmem hceq
        exact hany (List.any_eq_true.mpr ⟨seg, hmem, decide_eq_true hceq⟩)

/-- C3: `validateURI(base, candidate)` succeeds iff both strings are
non-empty, parseable, fragment-free, with equal scheme and host, and
the candidate path equals the base path or extends it by `/` with no
residual `..` segment; in particular the five concrete examples behave
as stated, and `validateURI(x, x)` succeeds for non-empty fragment-free
parseable `x` (non-emptiness being condition 1 of the claim itself). -/
theorem claim_C3_validateURI_exact :
    (∀ b r, validateURI b r = Except.ok () ↔ validateURISpec b r) ∧
    (∀ x u, x ≠ "" → urlParse x = some u → u.fragment = "" →
      validateURI x x = Except.ok ()) ∧
    validateURI "http://h/a" "http://h/a/b" = Except.ok () ∧
    validateURI "http://h/a" "http://h/ab" ≠ Except.ok () ∧
    validateURI "http://h/a" "http://h/a/.." ≠ Except.ok () ∧
    validateURI "http://h/a" "https://h/a" ≠ Except.ok () := by
  refine ⟨validateURI_ok_iff, ?_, by decide, by decide, by decide, by decide⟩
  intro x u hx hu hf
  exact (validateURI_ok_iff x x).mpr ⟨hx, hx, u, u, hu, hu, hf, hf, rfl, rfl, Or.inl rfl⟩

/-- C3 witness: the theorem applied to the concrete uri
`http://w/p`. -/
theorem claim_C3_validateURI_exact_witness :
    validateURI "http://w/p" "http://w/p" = Except.ok () :=
  claim_C3_validateURI_exact.2.1 "http://w/p" ⟨"http", "w", "/p", "", ""⟩
    (by decide) rfl rfl

/-- C8 counterexample: `http://h/a` and `https://h/a` are fragment-free
with equal paths, yet `validateURI` fails on the scheme mismatch — the
claim omits the scheme/host equality conditions. -/
theorem claim_C8_counterexample :
    (urlParse "http://h/a").map GoURL.fragment = some "" ∧
    (urlParse "https://h/a").map GoURL.fragment = some "" ∧
    (urlParse "https://h/a").map GoURL.path = (urlParse "http://h/a").map GoURL.path ∧
    validateURI "http://h/a" "https://h/a" =
      Except.error (URIErr.validation "scheme mismatch") :=
  ⟨rfl, rfl, rfl, rfl⟩

/-- C8 (amended): for every non-empty parseable fragment-free base and
candidate with equal schemes, equal hosts and equal paths, `validateURI`
succeeds. -/
theorem claim_C8_same_path_same_origin_ok (b c : String) (ub uc : GoURL)
    (hb : b ≠ "") (hc : c ≠ "")
    (hub : urlParse b = some ub) (huc : urlParse c = some uc)
    (hf1 : ub.fragment = "") (hf2 : uc.fragment = "")
    (hs : ub.scheme = uc.scheme) (hh : ub.host = uc.host)
    (hp : ub.path = uc.path) :
    validateURI b c = Except.ok () :=
  (validateURI_ok_iff b c).mpr ⟨hb, hc, ub, uc, hub, huc, hf1, hf2, hs, hh, Or.inl hp⟩

/-- C8 witness: equal-path candidate differing only in query. -/
theorem claim_C8_same_path_same_origin_ok_witness :
    validateURI "http://h/a" "http://h/a?x=1" = Except.ok () :=
  claim_C8_same_path_same_origin_ok "http://h/a" "http://h/a?x=1"
    ⟨"http", "h", "/a", "", ""⟩ ⟨"http", "h", "/a", "x=1", ""⟩
    (by decide) (by decide) rfl rfl rfl rfl rfl rfl rfl

/-- Splitting a well-formed bearer header at its first space. -/
theorem goSplitN2_bearer (t : String) :
    goSplitN2 ("Bearer " ++ t) ' ' = ["Bearer", t] := by
  have hd : ("Bearer " ++ t).data =
      'B' :: 'e' :: 'a' :: 'r' :: 'e' :: 'r' :: ' ' :: t.data := rfl
  unfold goSplitN2
  rw [hd]
  simp [listCutChar]

theorem bearer_append_ne_empty (t : String) : "Bearer " ++ t ≠ "" := by
  intro hc
  have := congrArg String.data hc
  simp at this

/-- C4 (amended): the `Bearer` header wins whenever it is present and
well-formed; with neither source, none; with only the form `code`, the
form value; with a malformed header: none when the form `code` is
empty, and otherwise the part of the header after its first space —
never the form field — with a panic when the header has no space at
all. -/
theorem claim_C4_bearer_precedence (r : HttpRequest) :
    (r.authorization = "" → r.formGet "code" = "" →
      checkBearerAuth r = BearerOut.noAuth) ∧
    (r.authorization = "" → r.formGet "code" ≠ "" →
      checkBearerAuth r = BearerOut.auth (r.formGet "code")) ∧
    (∀ t, r.authorization = "Bearer " ++ t →
      checkBearerAuth r = BearerOut.auth t) ∧
    (r.authorization ≠ "" →
      ((goSplitN2 r.authorization ' ').length ≠ 2 ∨
        (goSplitN2 r.authorization ' ').head? ≠ some "Bearer") →
      r.formGet "code" = "" → checkBearerAuth r = BearerOut.noAuth) ∧
    (∀ pre post, r.authorization ≠ "" →
      goSplitN2 r.authorization ' ' = [pre, post] → pre ≠ "Bearer" →
      r.formGet "code" ≠ "" → checkBearerAuth r = BearerOut.auth post) ∧
    (r.authorization ≠ "" → r.formGet "code" ≠ "" →
      goSplitN2 r.authorization ' ' = [r.authorization] →
      checkBearerAuth r = BearerOut.panicked) := by
  refine ⟨?_, ?_, ?_, ?_, ?_, ?_⟩
  · intro hh hf
    unfold checkBearerAuth
    rw [if_pos ⟨hh, hf⟩]
  · intro hh hf
    unfold checkBearerAuth
    rw [if_neg (by simp [hf]), if_neg (by simp [hh])]
  · intro t hh
    unfold checkBearerAuth
    rw [hh]
    rw [if_neg (by simp [bearer_append_ne_empty t]), if_pos (bearer_append_ne_empty t),
      goSplitN2_bearer]
    simp
  · intro hh hm hf
    unfold checkBearerAuth
    rw [if_neg (by simp [hh]), if_pos hh, if_pos ⟨hm, hf⟩]
  · intro pre post hh hsplit hpre hf
    unfold checkBearerAuth
    rw [if_neg (by simp [hh]), if_pos hh, hsplit]
    rw [if_neg (by simp [hf])]
    simp
  · intro hh hf hsplit
    unfold checkBearerAuth
    rw [if_neg (by simp [hh]), if_pos hh, hsplit]
    rw [if_neg (by simp [hf])]
    simp

/-- C4 witness: the well-formed header `Bearer XYZ` beats form
`code=ABC`, and only the form `code=XYZ` also yields `XYZ`. -/
theorem claim_C4_bearer_precedence_witness :
    checkBearerAuth ⟨"Bearer XYZ", [("code", "ABC")]⟩ = BearerOut.auth "XYZ" ∧
    checkBearerAuth ⟨"", [("code", "XYZ")]⟩ = BearerOut.auth "XYZ" :=
  ⟨(claim_C4_bearer_precedence ⟨"Bearer XYZ", [("code", "ABC")]⟩).2.2.1 "XYZ" rfl,
    (claim_C4_bearer_precedence ⟨"", [("code", "XYZ")]⟩).2.1 rfl (by decide)⟩

/-- C4 counterexample: with the malformed header `Bogus ABC` and form
`code=ABC`, the result equals the form value while the header token
`ABC` is non-empty, and with header `X ` (trailing space) and form
`code=ABC` the result is the header remainder `""`, not the form value
— against "the form field code is used as the result only when the
header token is empty". -/
theorem claim_C4_counterexample :
    checkBearerAuth ⟨"Bogus ABC", [("code", "ABC")]⟩ = BearerOut.auth "ABC" ∧
    (⟨"Bogus ABC", [("code", "ABC")]⟩ : HttpRequest).formGet "code" = "ABC" ∧
    goSplitN2 "Bogus ABC" ' ' = ["Bogus", "ABC"] ∧
    checkBearerAuth ⟨"X ", [("code", "ABC")]⟩ = BearerOut.auth "" :=
  ⟨by decide, by decide, by decide, by decide⟩

/-- C9: `checkBearerAuth` is not total — on a one-word `Authorization`
header together with a non-empty form `code`, the Go code indexes
`s[1]` of a one-element slice and panics. -/
theorem claim_C9_checkBearerAuth_panics :
    checkBearerAuth ⟨"Bearer", [("code", "ABC")]⟩ = BearerOut.panicked ∧
    goSplitN2 "Bearer" ' ' = ["Bearer"] :=
  ⟨by decide, by decide⟩




/-- `extraScopes` is true exactly when some non-empty comma-separated
element of the requested scope is absent from the granted scope. -/
theorem extraScopes_iff (a b : String) :
    extraScopes a b = true ↔
      ∃ sc, sc ∈ goSplitChar b ',' ∧ sc ≠ "" ∧ sc ∉ goSplitChar a ',' := by
  unfold extraScopes
  rw [List.any_eq_true]
  constructor
  · rintro ⟨sc, hmem, hcond⟩
    rw [Bool.and_eq_true] at hcond
    obtain ⟨hne, hnc⟩ := hcond
    have hne2 : sc ≠ "" := by simpa using hne
    refine ⟨sc, hmem, hne2, ?_⟩
    intro hmem2
    rw [Bool.not_eq_true'] at hnc
    have hmf : sc ∈ (goSplitChar a ',').filter (fun x => x != "") :=
      List.mem_filter.mpr ⟨hmem2, by simpa using hne2⟩
    rw [← List.elem_iff] at hmf
    rw [List.contains] at hnc
    rw [hnc] at hmf
    cases hmf
  · rintro ⟨sc, hmem, hne, hnotmem⟩
    refine ⟨sc, hmem, ?_⟩
    rw [Bool.and_eq_true]
    refine ⟨by simpa using hne, ?_⟩
    rw [Bool.not_eq_true', List.contains]
    rw [← Bool.not_eq_true]
    intro hc
    rw [List.elem_iff] at hc
    exact hnotmem (List.mem_filter.mp hc).1


/-- C5: for every refresh request whose previous grant loads with a
matching client, the request inherits the grant's redirect uri and
user data, inherits its scope exactly when the request's scope is
empty, and the handler sets `access_denied` iff the (possibly
inherited) requested scope, read as a comma-separated set with empty
elements ignored, contains an element outside the previous grant's
scope set. -/
theorem claim_C5_refresh (s : ServerM)
    (load : String → Except String (Option AccessGrant))
    (w : Response) (r : HttpRequest) (client pc : ClientM) (prev : AccessGrant)
    (hw : w.isError = false)
    (hcode : r.formGet "refresh_token" ≠ "")
    (hload : load (r.formGet "refresh_token") = Except.ok (some prev))
    (hpc : prev.client = some pc)
    (hpuri : pc.redirectURI ≠ "")
    (hid : pc.id = client.id) :
    (∀ ar, (handleRefreshTokenRequestAuthed s load w r client).1 = some ar →
      ar.redirectURI = prev.redirectURI ∧ ar.userData = prev.userData ∧
      ar.scope = (if r.formGet "scope" = "" then prev.scope else r.formGet "scope")) ∧
    (((handleRefreshTokenRequestAuthed s load w r client).2.isError = true ∧
       (handleRefreshTokenRequestAuthed s load w r client).2.errorId = "access_denied") ↔
      ∃ sc, sc ∈ goSplitChar
          (if r.formGet "scope" = "" then prev.scope else r.formGet "scope") ',' ∧
        sc ≠ "" ∧ sc ∉ goSplitChar prev.scope ',') := by
  unfold handleRefreshTokenRequestAuthed
  dsimp only
  rw [if_neg hcode, hload]
  dsimp only
  rw [hpc]
  dsimp only
  rw [if_neg hpuri, if_neg (not_not_intro hid)]
  by_cases hsc : r.formGet "scope" = ""
  · rw [if_pos hsc]
    dsimp only
    rw [if_pos hsc]
    by_cases hex : extraScopes prev.scope prev.scope = true
    · rw [if_pos hex]
      refine ⟨(by rintro ar hc; cases hc), ?_⟩
      constructor
      · intro _
        exact (extraScopes_iff prev.scope prev.scope).mp hex
      · intro _
        exact ⟨(by simp [Response.setInternal, Response.setError]), (by simp [Response.setInternal, Response.setError, ErrAccessDenied])⟩
    · rw [if_neg hex]
      refine ⟨?_, ?_⟩
      · rintro ar hc
        injection hc with hc
        subst hc
        exact ⟨rfl, rfl, rfl⟩
      · rw [iff_iff_implies_and_implies]
        constructor
        · rintro ⟨h1, -⟩
          rw [hw] at h1
          cases h1
        · rintro ⟨sc, hmem, hne, hnot⟩
          exact absurd ((extraScopes_iff prev.scope prev.scope).mpr ⟨sc, hmem, hne, hnot⟩) hex
  · rw [if_neg hsc]
    dsimp only
    rw [if_neg hsc]
    by_cases hex : extraScopes prev.scope (r.formGet "scope") = true
    · rw [if_pos hex]
      refine ⟨(by rintro ar hc; cases hc), ?_⟩
      constructor
      · intro _
        exact (extraScopes_iff _ _).mp hex
      · intro _
        exact ⟨(by simp [Response.setInternal, Response.setError]), (by simp [Response.setInternal, Response.setError, ErrAccessDenied])⟩
    · rw [if_neg hex]
      refine ⟨?_, ?_⟩
      · rintro ar hc
        injection hc with hc
        subst hc
        exact ⟨rfl, rfl, rfl⟩
      · constructor
        · rintro ⟨h1, -⟩
          rw [hw] at h1
          cases h1
        · rintro ⟨sc, hmem, hne, hnot⟩
          exact absurd ((extraScopes_iff _ _).mpr ⟨sc, hmem, hne, hnot⟩) hex


/-- C5 witness: previous scope `a,b`, requested `b,a,c` — denied with
`access_denied`. -/
theorem claim_C5_refresh_witness :
    (handleRefreshTokenRequestAuthed testServer (fun _ => Except.ok (some prevGrantFix))
        NewResponse refreshDenyRequest testClient).2.isError = true ∧
    (handleRefreshTokenRequestAuthed testServer (fun _ => Except.ok (some prevGrantFix))
        NewResponse refreshDenyRequest testClient).2.errorId = "access_denied" :=
  (claim_C5_refresh testServer (fun _ => Except.ok (some prevGrantFix)) NewResponse
      refreshDenyRequest testClient testClient prevGrantFix rfl (by decide) rfl rfl
      (by decide) rfl).2.mpr ⟨"c", by decide, by decide, by decide⟩

/-- C6: for a client implementing `ClientSecretMatcher`, `getClient`
decides the match through `ClientSecretMatches` alone — two clients
differing only in their stored plain secret produce the same response
side effects and the same accept/reject decision. -/
theorem claim_C6_matcher_only (auth : BasicAuth) (w : Response) (c : ClientM)
    (s2 : String) (hm : c.matcher.isSome = true) :
    ((getClient (fun _ => Except.ok (some c)) auth w).2 =
      (getClient (fun _ => Except.ok (some { c with secret := s2 })) auth w).2) ∧
    ((getClient (fun _ => Except.ok (some c)) auth w).1 = some c ↔
      (getClient (fun _ => Except.ok (some { c with secret := s2 })) auth w).1 =
        some { c with secret := s2 }) ∧
    ((getClient (fun _ => Except.ok (some c)) auth w).1 = none ↔
      (getClient (fun _ => Except.ok (some { c with secret := s2 })) auth w).1 = none) := by
  cases hcm : c.matcher with
  | none => rw [hcm] at hm; simp at hm
  | some m =>
    unfold getClient
    dsimp only
    rw [hcm]
    dsimp only
    split_ifs <;> simp

/-- C6 witness: the matcher client authenticated with `pw`, with its
plain secret replaced. -/
theorem claim_C6_matcher_only_witness :
    (getClient (fun _ => Except.ok (some matcherClient)) ⟨"1234", "pw"⟩ NewResponse).2 =
      (getClient (fun _ => Except.ok (some { matcherClient with secret := "other" }))
        ⟨"1234", "pw"⟩ NewResponse).2 :=
  (claim_C6_matcher_only ⟨"1234", "pw"⟩ NewResponse matcherClient "other" rfl).1

/-- C7: when the response is already an error, `FinishAuthorizeRequest`,
`FinishAccessRequest` and `FinishInfoRequest` return it unchanged and
perform no storage operation. -/
theorem claim_C7_finish_noop_on_error (s : ServerM) (stor : StorageOracle)
    (w : Response) (r : HttpRequest) (aar : AuthorizeRequest) (car : AccessRequest)
    (ir : InfoRequest) (hw : w.isError = true) :
    FinishAuthorizeRequest s stor w r aar = (w, []) ∧
    FinishAccessRequest s stor w r car = (w, []) ∧
    FinishInfoRequest s w ir = some (w, []) := by
  refine ⟨?_, ?_, ?_⟩
  · unfold FinishAuthorizeRequest
    rw [if_pos hw]
  · unfold FinishAccessRequest
    rw [if_pos hw]
  · unfold FinishInfoRequest
    rw [if_pos hw]

/-- C7 witness: a response carrying `invalid_request` passes through
both finishers untouched. -/
theorem claim_C7_finish_noop_on_error_witness :
    errorResponse.isError = true ∧
    FinishAccessRequest testServer allOkStorage errorResponse emptyRequest
      AccessRequest.zero = (errorResponse, []) ∧
    FinishAuthorizeRequest testServer allOkStorage errorResponse emptyRequest
      codeAuthRequest = (errorResponse, []) :=
  ⟨rfl,
    (claim_C7_finish_noop_on_error testServer allOkStorage errorResponse emptyRequest
      codeAuthRequest AccessRequest.zero ⟨"", none⟩ rfl).2.1,
    (claim_C7_finish_noop_on_error testServer allOkStorage errorResponse emptyRequest
      codeAuthRequest AccessRequest.zero ⟨"", none⟩ rfl).1⟩

/-- C10: a successful authorized code-flow finish writes both the
`code` and the `state` output keys — the `state` key unconditionally,
even for an empty state — whereas `SetError` echoes `state` only when
the variadic argument is present and non-empty. -/
theorem claim_C10_code_and_state_always (s : ServerM) (stor : StorageOracle)
    (w : Response) (r : HttpRequest) (ar : AuthorizeRequest) (code : String)
    (hw : w.isError = false) (ha : ar.authorized = true) (ht : ar.rtype = "code")
    (hgen : s.authGen (authDataFor s ar) = Except.ok code)
    (hsave : stor.saveAuthorizeDataOk { authDataFor s ar with code := code } = true) :
    lookupOut (FinishAuthorizeRequest s stor w r ar).1.output "code" =
      some (OutVal.str code) ∧
    lookupOut (FinishAuthorizeRequest s stor w r ar).1.output "state" =
      some (OutVal.str ar.state) ∧
    (∀ (w2 : Response) (e : ResponseError),
      lookupOut (w2.setError e []).output "state" = none ∧
      lookupOut (w2.setError e [""]).output "state" = none) := by
  unfold FinishAuthorizeRequest
  rw [if_neg (by simp [hw])]
  dsimp only
  rw [if_pos ha, if_neg (by simp [ht]), hgen]
  dsimp only
  rw [if_pos hsave]
  dsimp only
  refine ⟨?_, ?_, ?_⟩
  · simp [Response.setOutput, Response.setRedirect, lookupOut_setOut_self,
      lookupOut_setOut_ne, authDataFor]
  · simp [Response.setOutput, lookupOut_setOut_self, authDataFor]
  · intro w2 e
    exact ⟨(by simp [Response.setError, lookupOut, setOut]),
      (by simp [Response.setError, lookupOut, setOut])⟩

/-- C10 witness: a code-flow run whose request state is empty still
carries the `state` key in the output. -/
theorem claim_C10_witness :
    lookupOut (FinishAuthorizeRequest testServer allOkStorage NewResponse emptyRequest
      codeAuthRequest).1.output "state" = some (OutVal.str "") ∧
    codeAuthRequest.state = "" :=
  ⟨(claim_C10_code_and_state_always testServer allOkStorage NewResponse emptyRequest
      codeAuthRequest "1" rfl rfl rfl rfl rfl).2.1, rfl⟩

end Oauthlib
